import Mathlib

/-!
Shallow embedding of the WebSocket connection registry of
`src/backend/app/websocket/manager.py` (class `ConnectionManager`, the
module-level read-loop `handle_websocket_client`, and the message types
it uses), together with theorems settling the specification claims about
it.

Modelling conventions:
* A `WebSocket` handle is a record with a numeric identity and the
  optional `client` peer information (`websocket.client`); equality of
  handles is structural, mirroring Python object identity for distinct
  live connections.
* Python `dict`s are association lists whose operations (`alookup`,
  `aset`, `aerase`) reproduce dict lookup, assignment and `del` exactly
  on duplicate-free key lists (the only lists dicts produce).
* Python `set`s of websockets are duplicate-free lists with `sadd`
  (`set.add`) and `sdiscard` (`set.discard`).
* `datetime.utcnow()` is an explicit `now : Nat` parameter.
* A send over the wire either succeeds or raises; the pattern of
  failures is an explicit `fails : WebSocket → Bool` parameter, and the
  `try ... except: pass` of the source becomes an `Attempt` record in an
  output trace whose `ok` field is `!fails ws` (the exception is
  swallowed, so the surrounding control flow never depends on it).
* Registry-mutating entry points return the new state paired with the
  trace of send attempts they made.
-/

namespace NoorWs

/-- A live websocket handle: unique identity plus the best-effort peer
information exposed as `websocket.client` (`none` when absent). -/
structure WebSocket where
  id : Nat
  client : Option String
deriving DecidableEq, Repr

/-- The metadata record stored in `ConnectionManager.connection_info`:
`{"user_id": ..., "device_id": ..., "connected_at": ..., "client": ...}`. -/
structure ConnInfo where
  user_id : String
  device_id : Option String
  connected_at : Nat
  client : String
deriving DecidableEq, Repr

/-- Outbound JSON messages, as a tagged union of the shapes the manager
builds plus an opaque `payload` variant for caller-supplied dicts (which
carry their own `"type"` discriminator and remaining fields). -/
inductive Msg where
  | connectionAck (status : String) (user_id : String) (timestamp : Nat)
  | pong (timestamp : Nat)
  | syncResponse (data : List (String × String)) (timestamp : Nat)
  | payload (ty : String) (body : String)
deriving DecidableEq, Repr

/-- The `"type"` field of an outbound message. -/
def Msg.type : Msg → String
  | .connectionAck _ _ _ => "connection"
  | .pong _ => "pong"
  | .syncResponse _ _ => "sync_response"
  | .payload ty _ => ty

/-- One attempted `websocket.send_text`: the target connection, the
message, and whether the write succeeded (`ok = false` means the send
raised and the exception was caught by the caller). -/
structure Attempt where
  target : WebSocket
  msg : Msg
  ok : Bool
deriving DecidableEq, Repr

/-- Dict lookup `d.get(k)` / `k in d` on an association list (first
matching key wins, as in a duplicate-free dict). -/
def alookup {α β : Type} [DecidableEq α] : List (α × β) → α → Option β
  | [], _ => none
  | (k, v) :: rest, a => if k = a then some v else alookup rest a

/-- Dict assignment `d[k] = v`: replace the value at `k` in place if the
key is present (preserving position, as dicts preserve insertion order),
otherwise append the new entry at the end. -/
def aset {α β : Type} [DecidableEq α] : List (α × β) → α → β → List (α × β)
  | [], k, v => [(k, v)]
  | (k', v') :: rest, k, v =>
      if k' = k then (k, v) :: rest else (k', v') :: aset rest k v

/-- Dict deletion `del d[k]`: drop the entry (entries) with key `k`,
preserving the order of the rest. -/
def aerase {α β : Type} [DecidableEq α] : List (α × β) → α → List (α × β)
  | [], _ => []
  | (k', v') :: rest, k =>
      if k' = k then aerase rest k else (k', v') :: aerase rest k

/-- `set.add`: insert the element if it is not already a member. -/
def sadd (l : List WebSocket) (w : WebSocket) : List WebSocket :=
  if w ∈ l then l else l ++ [w]

/-- `set.discard`: remove the element if present, never an error. -/
def sdiscard (l : List WebSocket) (w : WebSocket) : List WebSocket :=
  l.filter (fun c => c ≠ w)

/-- The state of `ConnectionManager`: `active_connections` maps a
`user_id` to its set of websockets, `connection_info` is the metadata
side-table keyed by websocket. -/
structure ConnectionManager where
  active_connections : List (String × List WebSocket)
  connection_info : List (WebSocket × ConnInfo)
deriving DecidableEq, Repr

/-- The freshly constructed manager (`ConnectionManager.__init__`). -/
def emptyManager : ConnectionManager := ⟨[], []⟩

/-- `websocket.client.host if websocket.client else "unknown"`. -/
def clientHost (ws : WebSocket) : String :=
  match ws.client with
  | some h => h
  | none => "unknown"

/-- `send_personal_message`: one `send_text` attempt to one websocket;
any exception is swallowed, so the result is just the recorded attempt. -/
def send_personal_message (m : Msg) (ws : WebSocket) (fails : WebSocket → Bool) :
    List Attempt :=
  [⟨ws, m, !fails ws⟩]

/-- `ConnectionManager.connect`: ensure `user_id` has a set, add the
websocket to it, record metadata, and send the `"connection"`
acknowledgement to this websocket only. -/
def connect (s : ConnectionManager) (ws : WebSocket) (user_id : String)
    (device_id : Option String) (now : Nat) (fails : WebSocket → Bool) :
    ConnectionManager × List Attempt :=
  let ac0 :=
    if (alookup s.active_connections user_id).isSome then s.active_connections
    else aset s.active_connections user_id []
  let conns := (alookup ac0 user_id).getD []
  let ac1 := aset ac0 user_id (sadd conns ws)
  let ci := aset s.connection_info ws
    ⟨user_id, device_id, now, clientHost ws⟩
  let ack := Msg.connectionAck "connected" user_id now
  (⟨ac1, ci⟩, send_personal_message ack ws fails)

/-- `ConnectionManager.disconnect`: discard the websocket from the
user's set (deleting the user's key if the set becomes empty), then
delete the metadata entry if one exists. -/
def disconnect (s : ConnectionManager) (ws : WebSocket) (user_id : String) :
    ConnectionManager :=
  let ac :=
    match alookup s.active_connections user_id with
    | none => s.active_connections
    | some conns =>
        let conns' := sdiscard conns ws
        if conns' = [] then aerase s.active_connections user_id
        else aset s.active_connections user_id conns'
  let ci :=
    if (alookup s.connection_info ws).isSome then aerase s.connection_info ws
    else s.connection_info
  ⟨ac, ci⟩

/-- `ConnectionManager.send_to_user`: if the user has an entry, attempt
a send to every connection in its set, collect the ones whose send
raised, and afterwards run `disconnect` on each collected connection. -/
def send_to_user (s : ConnectionManager) (user_id : String) (m : Msg)
    (fails : WebSocket → Bool) : ConnectionManager × List Attempt :=
  match alookup s.active_connections user_id with
  | none => (s, [])
  | some conns =>
      let attempts := conns.map (fun c => (⟨c, m, !fails c⟩ : Attempt))
      let disconnected := conns.filter (fun c => fails c)
      let s' := disconnected.foldl (fun st c => disconnect st c user_id) s
      (s', attempts)

/-- The nested loop of `ConnectionManager.broadcast` over
`active_connections.items()`: skip excluded users (`continue`), attempt
a send to every connection of every other user, each failure caught
individually. -/
def broadcastLoop (ex : List String) (m : Msg) (fails : WebSocket → Bool) :
    List (String × List WebSocket) → List Attempt
  | [] => []
  | (user_id, conns) :: rest =>
      if user_id ∈ ex then broadcastLoop ex m fails rest
      else conns.map (fun c => (⟨c, m, !fails c⟩ : Attempt))
        ++ broadcastLoop ex m fails rest

/-- `ConnectionManager.broadcast`: `exclude_users` defaults to `[]` when
`None`; the loop only sends, never touching either map. -/
def broadcast (s : ConnectionManager) (m : Msg)
    (exclude_users : Option (List String)) (fails : WebSocket → Bool) :
    ConnectionManager × List Attempt :=
  let ex := exclude_users.getD []
  (s, broadcastLoop ex m fails s.active_connections)

/-- `ConnectionManager.get_connected_users`: the list of user keys. -/
def get_connected_users (s : ConnectionManager) : List String :=
  s.active_connections.map Prod.fst

/-- `ConnectionManager.get_connection_count`: total connections across
all users. -/
def get_connection_count (s : ConnectionManager) : Nat :=
  (s.active_connections.map (fun p => p.2.length)).sum

/-- A parsed inbound frame, reduced to what the read loop inspects:
`message.get("type")` (`none` when the field is missing). -/
structure InFrame where
  type? : Option String
deriving DecidableEq, Repr

/-- The per-frame dispatch of `handle_websocket_client`'s read loop:
`ping` gets a `pong`, `sync_request` gets a `sync_response` with an
empty data payload, anything else falls through to `pass`. -/
def handleFrame (s : ConnectionManager) (ws : WebSocket) (f : InFrame)
    (now : Nat) (fails : WebSocket → Bool) : ConnectionManager × List Attempt :=
  if f.type? = some "ping" then
    (s, send_personal_message (Msg.pong now) ws fails)
  else if f.type? = some "sync_request" then
    (s, send_personal_message (Msg.syncResponse [] now) ws fails)
  else
    (s, [])

/-- One registry operation, with the environment (clock, failure
pattern) it was invoked under. -/
inductive Op where
  | connect (ws : WebSocket) (user_id : String) (device_id : Option String)
      (now : Nat) (fails : WebSocket → Bool)
  | disconnect (ws : WebSocket) (user_id : String)
  | send_to_user (user_id : String) (m : Msg) (fails : WebSocket → Bool)
  | broadcast (m : Msg) (exclude_users : Option (List String))
      (fails : WebSocket → Bool)

/-- The state transformation of one operation. -/
def applyOp (s : ConnectionManager) : Op → ConnectionManager
  | .connect ws u d now fails => (connect s ws u d now fails).1
  | .disconnect ws u => disconnect s ws u
  | .send_to_user u m fails => (send_to_user s u m fails).1
  | .broadcast m ex fails => (broadcast s m ex fails).1

/-- States reachable from the empty registry by any sequence of
operations, with no restriction on their arguments. -/
inductive Reachable : ConnectionManager → Prop where
  | empty : Reachable emptyManager
  | step (s : ConnectionManager) (op : Op) : Reachable s → Reachable (applyOp s op)

/-! ### Association-list and set lemmas -/

theorem alookup_aset_self {α β : Type} [DecidableEq α] (l : List (α × β)) (k : α) (v : β) :
    alookup (aset l k v) k = some v := by
  induction l with
  | nil => simp [aset, alookup]
  | cons p rest ih =>
      by_cases h : p.1 = k
      · simp [aset, h, alookup]
      · simp [aset, h, alookup, ih]

theorem alookup_aset_ne {α β : Type} [DecidableEq α] (l : List (α × β)) (k k' : α) (v : β)
    (h : k' ≠ k) : alookup (aset l k v) k' = alookup l k' := by
  have hk : ¬ k = k' := fun hh => h hh.symm
  induction l with
  | nil => simp [aset, alookup, hk]
  | cons p rest ih =>
      obtain ⟨k1, v1⟩ := p
      by_cases hp : k1 = k
      · subst hp
        simp [aset, alookup, hk]
      · simp [aset, alookup, hp, ih]

theorem alookup_aerase_self {α β : Type} [DecidableEq α] (l : List (α × β)) (k : α) :
    alookup (aerase l k) k = none := by
  induction l with
  | nil => simp [aerase, alookup]
  | cons p rest ih =>
      obtain ⟨k1, v1⟩ := p
      by_cases h : k1 = k
      · simpa [aerase, h, alookup] using ih
      · simpa [aerase, h, alookup] using ih

theorem alookup_aerase_ne {α β : Type} [DecidableEq α] (l : List (α × β)) (k k' : α)
    (h : k' ≠ k) : alookup (aerase l k) k' = alookup l k' := by
  have hk : ¬ k = k' := fun hh => h hh.symm
  induction l with
  | nil => simp [aerase, alookup]
  | cons p rest ih =>
      obtain ⟨k1, v1⟩ := p
      by_cases hp : k1 = k
      · subst hp
        simp [aerase, alookup, hk, ih]
      · simp [aerase, alookup, hp, ih]

theorem alookup_isSome_iff_mem_keys {α β : Type} [DecidableEq α]
    (l : List (α × β)) (k : α) :
    (alookup l k).isSome ↔ k ∈ l.map Prod.fst := by
  induction l with
  | nil => simp [alookup]
  | cons p rest ih =>
      by_cases h : p.1 = k
      · simp [alookup, h]
      · have hne : ¬ k = p.1 := fun hh => h hh.symm
        simp [alookup, h, ih, hne]

theorem mem_sdiscard {l : List WebSocket} {w c : WebSocket} :
    c ∈ sdiscard l w ↔ c ∈ l ∧ c ≠ w := by
  simp [sdiscard]

theorem mem_sadd {l : List WebSocket} {w c : WebSocket} :
    c ∈ sadd l w ↔ c ∈ l ∨ c = w := by
  unfold sadd
  by_cases h : w ∈ l
  · simp [h]
    intro hc
    subst hc
    exact h
  · simp [h]

theorem sadd_ne_nil (l : List WebSocket) (w : WebSocket) : sadd l w ≠ [] := by
  unfold sadd
  by_cases h : w ∈ l
  · simp [h]
    intro hnil
    subst hnil
    simp at h
  · simp [h]

/-! ### Characterizations of the operations -/

theorem connect_trace (s : ConnectionManager) (ws : WebSocket) (u : String)
    (d : Option String) (now : Nat) (fails : WebSocket → Bool) :
    (connect s ws u d now fails).2
      = [⟨ws, Msg.connectionAck "connected" u now, !fails ws⟩] := rfl

theorem connect_ac_self (s : ConnectionManager) (ws : WebSocket) (u : String)
    (d : Option String) (now : Nat) (fails : WebSocket → Bool) :
    alookup (connect s ws u d now fails).1.active_connections u
      = some (sadd ((alookup s.active_connections u).getD []) ws) := by
  cases hs : alookup s.active_connections u with
  | none =>
      simp only [connect, hs, Option.isSome_none, Bool.false_eq_true, if_false,
        Option.getD_none]
      rw [alookup_aset_self]
      rw [alookup_aset_self]
      simp
  | some conns =>
      simp only [connect, hs, Option.isSome_some, if_true, Option.getD_some]
      rw [alookup_aset_self]

theorem connect_ac_ne (s : ConnectionManager) (ws : WebSocket) (u u' : String)
    (d : Option String) (now : Nat) (fails : WebSocket → Bool) (h : u' ≠ u) :
    alookup (connect s ws u d now fails).1.active_connections u'
      = alookup s.active_connections u' := by
  cases hs : alookup s.active_connections u with
  | none =>
      simp only [connect, hs, Option.isSome_none, Bool.false_eq_true, if_false]
      rw [alookup_aset_ne _ _ _ _ h, alookup_aset_ne _ _ _ _ h]
  | some conns =>
      simp only [connect, hs, Option.isSome_some, if_true]
      rw [alookup_aset_ne _ _ _ _ h]

theorem connect_ci_self (s : ConnectionManager) (ws : WebSocket) (u : String)
    (d : Option String) (now : Nat) (fails : WebSocket → Bool) :
    alookup (connect s ws u d now fails).1.connection_info ws
      = some ⟨u, d, now, clientHost ws⟩ := by
  simp only [connect]
  rw [alookup_aset_self]

theorem connect_ci_ne (s : ConnectionManager) (ws w : WebSocket) (u : String)
    (d : Option String) (now : Nat) (fails : WebSocket → Bool) (h : w ≠ ws) :
    alookup (connect s ws u d now fails).1.connection_info w
      = alookup s.connection_info w := by
  simp only [connect]
  rw [alookup_aset_ne _ _ _ _ h]

theorem disconnect_ci (s : ConnectionManager) (ws : WebSocket) (uid : String)
    (w : WebSocket) :
    alookup (disconnect s ws uid).connection_info w
      = if w = ws then none else alookup s.connection_info w := by
  unfold disconnect
  by_cases hs : (alookup s.connection_info ws).isSome
  · by_cases hw : w = ws
    · subst hw
      simp [hs, alookup_aerase_self]
    · simp [hs, hw, alookup_aerase_ne _ _ _ hw]
  · by_cases hw : w = ws
    · subst hw
      rw [Option.not_isSome_iff_eq_none] at hs
      simp [hs]
    · simp [hs, hw]

theorem disconnect_ac_ne (s : ConnectionManager) (ws : WebSocket) (uid u : String)
    (h : u ≠ uid) :
    alookup (disconnect s ws uid).active_connections u
      = alookup s.active_connections u := by
  unfold disconnect
  cases hs : alookup s.active_connections uid with
  | none => simp
  | some conns =>
      by_cases he : sdiscard conns ws = []
      · simp [he, alookup_aerase_ne _ _ _ h]
      · simp [he, alookup_aset_ne _ _ _ _ h]

theorem disconnect_ac_self (s : ConnectionManager) (ws : WebSocket) (uid : String) :
    alookup (disconnect s ws uid).active_connections uid
      = match alookup s.active_connections uid with
        | none => none
        | some conns =>
            if sdiscard conns ws = [] then none else some (sdiscard conns ws) := by
  unfold disconnect
  cases hs : alookup s.active_connections uid with
  | none => simp [hs]
  | some conns =>
      by_cases he : sdiscard conns ws = []
      · simp [he, alookup_aerase_self]
      · simp [he, alookup_aset_self]

theorem disconnect_ac_self_none {s : ConnectionManager} {ws : WebSocket} {uid : String}
    (h : alookup s.active_connections uid = none) :
    alookup (disconnect s ws uid).active_connections uid = none := by
  rw [disconnect_ac_self, h]

theorem disconnect_ac_self_some {s : ConnectionManager} {ws : WebSocket} {uid : String}
    {conns : List WebSocket} (h : alookup s.active_connections uid = some conns) :
    alookup (disconnect s ws uid).active_connections uid
      = if sdiscard conns ws = [] then none else some (sdiscard conns ws) := by
  rw [disconnect_ac_self, h]

theorem send_to_user_state (s : ConnectionManager) (u : String) (m : Msg)
    (fails : WebSocket → Bool) :
    (send_to_user s u m fails).1
      = match alookup s.active_connections u with
        | none => s
        | some conns =>
            (conns.filter (fun c => fails c)).foldl
              (fun st c => disconnect st c u) s := by
  unfold send_to_user
  cases hs : alookup s.active_connections u <;> simp

theorem send_to_user_trace (s : ConnectionManager) (u : String) (m : Msg)
    (fails : WebSocket → Bool) :
    (send_to_user s u m fails).2
      = match alookup s.active_connections u with
        | none => []
        | some conns => conns.map (fun c => (⟨c, m, !fails c⟩ : Attempt)) := by
  unfold send_to_user
  cases hs : alookup s.active_connections u <;> simp

theorem sdiscard_eq_self_of_not_mem {l : List WebSocket} {w : WebSocket}
    (h : w ∉ l) : sdiscard l w = l := by
  unfold sdiscard
  apply List.filter_eq_self.mpr
  intro c hc
  simp only [decide_eq_true_eq]
  intro he
  subst he
  exact h hc

theorem aset_self_of_alookup {α β : Type} [DecidableEq α] {l : List (α × β)} {k : α}
    {v : β} (h : alookup l k = some v) : aset l k v = l := by
  induction l with
  | nil => simp [alookup] at h
  | cons p rest ih =>
      obtain ⟨k1, v1⟩ := p
      by_cases hp : k1 = k
      · subst hp
        simp [alookup] at h
        simp [aset, h]
      · simp [alookup, hp] at h
        simp [aset, hp, ih h]

/-- Memberships in user sets only shrink under `disconnect`, and the
removed websocket leaves `uid`'s set. -/
theorem mem_disconnect_ac {s : ConnectionManager} {ws : WebSocket} {uid u : String}
    {l' : List WebSocket} {c : WebSocket}
    (h : alookup (disconnect s ws uid).active_connections u = some l')
    (hc : c ∈ l') :
    ∃ l, alookup s.active_connections u = some l ∧ c ∈ l ∧ ¬(u = uid ∧ c = ws) := by
  by_cases hu : u = uid
  · subst hu
    cases hs : alookup s.active_connections u with
    | none => rw [disconnect_ac_self_none hs] at h; cases h
    | some conns =>
        rw [disconnect_ac_self_some hs] at h
        by_cases he : sdiscard conns ws = []
        · rw [if_pos he] at h; cases h
        · rw [if_neg he] at h
          have hl : sdiscard conns ws = l' := by injection h
          subst hl
          rcases mem_sdiscard.mp hc with ⟨hmem, hne⟩
          exact ⟨conns, rfl, hmem, fun hp => hne hp.2⟩
  · rw [disconnect_ac_ne _ _ _ _ hu] at h
    exact ⟨l', h, hc, fun hp => hu hp.1⟩

/-- After `disconnect s ws uid`, `ws` is not in `uid`'s set. -/
theorem disconnect_removes_from_set (s : ConnectionManager) (ws : WebSocket)
    (uid : String) {l' : List WebSocket}
    (h : alookup (disconnect s ws uid).active_connections uid = some l') :
    ws ∉ l' := by
  intro hmem
  rcases mem_disconnect_ac h hmem with ⟨l, _, _, hno⟩
  exact hno ⟨rfl, rfl⟩

/-- `disconnect` deletes the disconnected websocket's metadata entry. -/
theorem disconnect_removes_ci (s : ConnectionManager) (ws : WebSocket) (uid : String) :
    alookup (disconnect s ws uid).connection_info ws = none := by
  rw [disconnect_ci]
  simp

/-- Metadata entries only shrink under `disconnect`. -/
theorem mem_disconnect_ci {s : ConnectionManager} {ws w : WebSocket} {uid : String}
    {info : ConnInfo}
    (h : alookup (disconnect s ws uid).connection_info w = some info) :
    alookup s.connection_info w = some info := by
  rw [disconnect_ci] at h
  by_cases hw : w = ws
  · rw [if_pos hw] at h; cases h
  · rwa [if_neg hw] at h

/-! ### The non-empty-sets invariant (C3) -/

/-- Every user key present in `active_connections` has a non-empty set. -/
def NonEmptySets (s : ConnectionManager) : Prop :=
  ∀ u l, alookup s.active_connections u = some l → l ≠ []

theorem nonEmptySets_empty : NonEmptySets emptyManager := by
  intro u l h
  simp [emptyManager, alookup] at h

theorem nonEmptySets_connect (s : ConnectionManager) (ws : WebSocket) (u : String)
    (d : Option String) (now : Nat) (fails : WebSocket → Bool)
    (h : NonEmptySets s) : NonEmptySets (connect s ws u d now fails).1 := by
  intro u' l' hl
  by_cases hu : u' = u
  · subst hu
    rw [connect_ac_self] at hl
    have hx : sadd ((alookup s.active_connections u').getD []) ws = l' := by
      injection hl
    rw [← hx]
    exact sadd_ne_nil _ _
  · rw [connect_ac_ne _ _ _ _ _ _ _ hu] at hl
    exact h u' l' hl

theorem nonEmptySets_disconnect (s : ConnectionManager) (ws : WebSocket)
    (uid : String) (h : NonEmptySets s) : NonEmptySets (disconnect s ws uid) := by
  intro u l hl
  by_cases hu : u = uid
  · subst hu
    cases hs : alookup s.active_connections u with
    | none => rw [disconnect_ac_self_none hs] at hl; cases hl
    | some conns =>
        rw [disconnect_ac_self_some hs] at hl
        by_cases he : sdiscard conns ws = []
        · rw [if_pos he] at hl; cases hl
        · rw [if_neg he] at hl
          have hx : sdiscard conns ws = l := by injection hl
          rw [← hx]
          exact he
  · rw [disconnect_ac_ne _ _ _ _ hu] at hl
    exact h u l hl

theorem foldl_disconnect_preserves (P : ConnectionManager → Prop)
    (hP : ∀ s ws uid, P s → P (disconnect s ws uid)) (uid : String) :
    ∀ (L : List WebSocket) (s : ConnectionManager), P s →
      P (L.foldl (fun st c => disconnect st c uid) s) := by
  intro L
  induction L with
  | nil => intro s h; exact h
  | cons c rest ih =>
      intro s h
      exact ih (disconnect s c uid) (hP s c uid h)

theorem nonEmptySets_send_to_user (s : ConnectionManager) (u : String) (m : Msg)
    (fails : WebSocket → Bool) (h : NonEmptySets s) :
    NonEmptySets (send_to_user s u m fails).1 := by
  rw [send_to_user_state]
  cases hs : alookup s.active_connections u with
  | none => exact h
  | some conns =>
      exact foldl_disconnect_preserves NonEmptySets
        (fun s' ws' uid' hp => nonEmptySets_disconnect s' ws' uid' hp) u _ s h

theorem nonEmptySets_applyOp (s : ConnectionManager) (op : Op)
    (h : NonEmptySets s) : NonEmptySets (applyOp s op) := by
  cases op with
  | connect ws u d now fails => exact nonEmptySets_connect s ws u d now fails h
  | disconnect ws u => exact nonEmptySets_disconnect s ws u h
  | send_to_user u m fails => exact nonEmptySets_send_to_user s u m fails h
  | broadcast m ex fails => exact h

theorem nonEmptySets_reachable (s : ConnectionManager) (h : Reachable s) :
    NonEmptySets s := by
  induction h with
  | empty => exact nonEmptySets_empty
  | step s op _ ih => exact nonEmptySets_applyOp s op ih

/-! ### The at-most-one-owner invariant (C4) -/

/-- A websocket belongs to at most one user's connection set. -/
def AtMostOneOwner (s : ConnectionManager) : Prop :=
  ∀ w u1 u2 l1 l2, alookup s.active_connections u1 = some l1 →
    alookup s.active_connections u2 = some l2 → w ∈ l1 → w ∈ l2 → u1 = u2

/-- The side condition under which `connect` is invoked in the running
system: the websocket being connected is a brand-new transport channel,
so it is not currently in any user's set. -/
def FreshConnect (s : ConnectionManager) : Op → Prop
  | .connect ws _ _ _ _ =>
      ∀ u l, alookup s.active_connections u = some l → ws ∉ l
  | _ => True

/-- States reachable when `connect` is only ever invoked on websockets
not currently registered in any user's set. -/
inductive ReachableFresh : ConnectionManager → Prop where
  | empty : ReachableFresh emptyManager
  | step (s : ConnectionManager) (op : Op) :
      ReachableFresh s → FreshConnect s op → ReachableFresh (applyOp s op)

theorem atMostOneOwner_empty : AtMostOneOwner emptyManager := by
  intro w u1 u2 l1 l2 h1
  simp [emptyManager, alookup] at h1

/-- Memberships in user sets under `connect`: a member of a set of the
new state is either the connected websocket in its user's set, or was
already a member of the same user's set. -/
theorem mem_connect_ac {s : ConnectionManager} {ws : WebSocket} {u : String}
    {d : Option String} {now : Nat} {fails : WebSocket → Bool}
    {u' : String} {l' : List WebSocket} {w : WebSocket}
    (h : alookup (connect s ws u d now fails).1.active_connections u' = some l')
    (hw : w ∈ l') :
    (u' = u ∧ w = ws) ∨ (∃ l, alookup s.active_connections u' = some l ∧ w ∈ l) := by
  by_cases hu : u' = u
  · subst hu
    rw [connect_ac_self] at h
    have hx : sadd ((alookup s.active_connections u').getD []) ws = l' := by
      injection h
    rw [← hx] at hw
    rcases mem_sadd.mp hw with hmem | hws
    · cases hs : alookup s.active_connections u' with
      | none => rw [hs] at hmem; simp at hmem
      | some conns =>
          rw [hs] at hmem
          exact Or.inr ⟨conns, rfl, hmem⟩
    · exact Or.inl ⟨rfl, hws⟩
  · rw [connect_ac_ne _ _ _ _ _ _ _ hu] at h
    exact Or.inr ⟨l', h, hw⟩

theorem atMostOneOwner_connect (s : ConnectionManager) (ws : WebSocket) (u : String)
    (d : Option String) (now : Nat) (fails : WebSocket → Bool)
    (h : AtMostOneOwner s)
    (hfresh : ∀ u' l, alookup s.active_connections u' = some l → ws ∉ l) :
    AtMostOneOwner (connect s ws u d now fails).1 := by
  intro w u1 u2 l1 l2 h1 h2 hw1 hw2
  rcases mem_connect_ac h1 hw1 with ⟨hu1, hws1⟩ | ⟨l1', hl1, hm1⟩
  · rcases mem_connect_ac h2 hw2 with ⟨hu2, _⟩ | ⟨l2', hl2, hm2⟩
    · rw [hu1, hu2]
    · subst hws1
      exact absurd hm2 (hfresh u2 l2' hl2)
  · rcases mem_connect_ac h2 hw2 with ⟨hu2, hws2⟩ | ⟨l2', hl2, hm2⟩
    · subst hws2
      exact absurd hm1 (hfresh u1 l1' hl1)
    · exact h w u1 u2 l1' l2' hl1 hl2 hm1 hm2

theorem atMostOneOwner_disconnect (s : ConnectionManager) (ws : WebSocket)
    (uid : String) (h : AtMostOneOwner s) : AtMostOneOwner (disconnect s ws uid) := by
  intro w u1 u2 l1 l2 h1 h2 hw1 hw2
  rcases mem_disconnect_ac h1 hw1 with ⟨l1', hl1, hm1, _⟩
  rcases mem_disconnect_ac h2 hw2 with ⟨l2', hl2, hm2, _⟩
  exact h w u1 u2 l1' l2' hl1 hl2 hm1 hm2

theorem atMostOneOwner_send_to_user (s : ConnectionManager) (u : String) (m : Msg)
    (fails : WebSocket → Bool) (h : AtMostOneOwner s) :
    AtMostOneOwner (send_to_user s u m fails).1 := by
  rw [send_to_user_state]
  cases hs : alookup s.active_connections u with
  | none => exact h
  | some conns =>
      exact foldl_disconnect_preserves AtMostOneOwner
        (fun s' ws' uid' hp => atMostOneOwner_disconnect s' ws' uid' hp) u _ s h

theorem atMostOneOwner_reachableFresh (s : ConnectionManager)
    (h : ReachableFresh s) : AtMostOneOwner s := by
  induction h with
  | empty => exact atMostOneOwner_empty
  | step s op _ hside ih =>
      cases op with
      | connect ws u d now fails => exact atMostOneOwner_connect s ws u d now fails ih hside
      | disconnect ws u => exact atMostOneOwner_disconnect s ws u ih
      | send_to_user u m fails => exact atMostOneOwner_send_to_user s u m fails ih
      | broadcast m ex fails => exact ih

/-! ### The metadata-synchronization invariant (C2) -/

/-- Membership in some user's set is mirrored by a metadata entry. -/
def MetadataSync (s : ConnectionManager) : Prop :=
  ∀ w, (∃ u l, alookup s.active_connections u = some l ∧ w ∈ l) ↔
    (alookup s.connection_info w).isSome

/-- Each metadata entry names the user whose set holds its websocket. -/
def OwnerConsistent (s : ConnectionManager) : Prop :=
  ∀ w info u l, alookup s.connection_info w = some info →
    alookup s.active_connections u = some l → w ∈ l → u = info.user_id

def GoodState (s : ConnectionManager) : Prop := MetadataSync s ∧ OwnerConsistent s

/-- Call discipline of the running system: `connect` is only invoked on
a websocket with no metadata entry (a fresh transport channel), and
`disconnect` is invoked with the user identity the websocket's metadata
records (the identity it was connected under). -/
def WFStep (s : ConnectionManager) : Op → Prop
  | .connect ws _ _ _ _ => alookup s.connection_info ws = none
  | .disconnect ws uid =>
      ∀ info, alookup s.connection_info ws = some info → info.user_id = uid
  | _ => True

/-- States reachable from the empty registry under the call discipline
`WFStep`. -/
inductive ReachableWF : ConnectionManager → Prop where
  | empty : ReachableWF emptyManager
  | step (s : ConnectionManager) (op : Op) :
      ReachableWF s → WFStep s op → ReachableWF (applyOp s op)

theorem goodState_empty : GoodState emptyManager := by
  constructor
  · intro w
    simp [emptyManager, alookup]
  · intro w info u l h
    simp [emptyManager, alookup] at h

theorem goodState_connect (s : ConnectionManager) (ws : WebSocket) (u : String)
    (d : Option String) (now : Nat) (fails : WebSocket → Bool)
    (hg : GoodState s) (hfresh : alookup s.connection_info ws = none) :
    GoodState (connect s ws u d now fails).1 := by
  obtain ⟨hms, hoc⟩ := hg
  have hnomem : ∀ u' l, alookup s.active_connections u' = some l → ws ∉ l := by
    intro u' l hl hmem
    have hsome := (hms ws).mp ⟨u', l, hl, hmem⟩
    rw [hfresh] at hsome
    cases hsome
  constructor
  · intro w
    by_cases hw : w = ws
    · subst hw
      constructor
      · intro _
        rw [connect_ci_self]
        rfl
      · intro _
        exact ⟨u, _, connect_ac_self s w u d now fails,
          mem_sadd.mpr (Or.inr rfl)⟩
    · rw [connect_ci_ne _ _ _ _ _ _ _ hw]
      constructor
      · rintro ⟨u', l', hl', hm'⟩
        rcases mem_connect_ac hl' hm' with ⟨_, hws⟩ | ⟨l0, hl0, hm0⟩
        · exact absurd hws hw
        · exact (hms w).mp ⟨u', l0, hl0, hm0⟩
      · intro hsome
        rcases (hms w).mpr hsome with ⟨u', l0, hl0, hm0⟩
        by_cases hu : u' = u
        · subst hu
          refine ⟨u', _, connect_ac_self s ws u' d now fails, ?_⟩
          rw [hl0, Option.getD_some]
          exact mem_sadd.mpr (Or.inl hm0)
        · refine ⟨u', l0, ?_, hm0⟩
          rw [connect_ac_ne _ _ _ _ _ _ _ hu]
          exact hl0
  · intro w info u' l' hci hac hmem
    by_cases hw : w = ws
    · subst hw
      rw [connect_ci_self] at hci
      have hinfo : (⟨u, d, now, clientHost w⟩ : ConnInfo) = info := by injection hci
      rcases mem_connect_ac hac hmem with ⟨hu', _⟩ | ⟨l0, hl0, hm0⟩
      · rw [hu', ← hinfo]
      · exact absurd hm0 (hnomem u' l0 hl0)
    · rw [connect_ci_ne _ _ _ _ _ _ _ hw] at hci
      rcases mem_connect_ac hac hmem with ⟨_, hws⟩ | ⟨l0, hl0, hm0⟩
      · exact absurd hws hw
      · exact hoc w info u' l0 hci hl0 hm0

theorem goodState_disconnect (s : ConnectionManager) (ws : WebSocket) (uid : String)
    (hg : GoodState s)
    (hwf : ∀ info, alookup s.connection_info ws = some info → info.user_id = uid) :
    GoodState (disconnect s ws uid) := by
  obtain ⟨hms, hoc⟩ := hg
  constructor
  · intro w
    by_cases hw : w = ws
    · subst hw
      rw [disconnect_removes_ci]
      simp only [Option.isSome_none, Bool.false_eq_true, iff_false]
      rintro ⟨u', l', hl', hm'⟩
      rcases mem_disconnect_ac hl' hm' with ⟨l0, hl0, hm0, hno⟩
      have hsome := (hms w).mp ⟨u', l0, hl0, hm0⟩
      cases hci : alookup s.connection_info w with
      | none => rw [hci] at hsome; cases hsome
      | some info =>
          have huid := hwf info hci
          have hu' := hoc w info u' l0 hci hl0 hm0
          exact hno ⟨hu'.trans huid, rfl⟩
    · rw [disconnect_ci, if_neg hw]
      constructor
      · rintro ⟨u', l', hl', hm'⟩
        rcases mem_disconnect_ac hl' hm' with ⟨l0, hl0, hm0, _⟩
        exact (hms w).mp ⟨u', l0, hl0, hm0⟩
      · intro hsome
        rcases (hms w).mpr hsome with ⟨u', l0, hl0, hm0⟩
        by_cases hu : u' = uid
        · subst hu
          have hmem' : w ∈ sdiscard l0 ws := mem_sdiscard.mpr ⟨hm0, hw⟩
          have hne : sdiscard l0 ws ≠ [] := by
            intro hnil
            rw [hnil] at hmem'
            cases hmem'
          refine ⟨u', sdiscard l0 ws, ?_, hmem'⟩
          rw [disconnect_ac_self_some hl0, if_neg hne]
        · refine ⟨u', l0, ?_, hm0⟩
          rw [disconnect_ac_ne _ _ _ _ hu]
          exact hl0
  · intro w info u' l' hci hac hmem
    have hciold := mem_disconnect_ci hci
    rcases mem_disconnect_ac hac hmem with ⟨l0, hl0, hm0, _⟩
    exact hoc w info u' l0 hciold hl0 hm0

theorem goodState_foldl_disconnect (uid : String) :
    ∀ (L : List WebSocket) (s : ConnectionManager), GoodState s →
      (∀ c ∈ L, ∀ info, alookup s.connection_info c = some info → info.user_id = uid) →
      GoodState (L.foldl (fun st c => disconnect st c uid) s) := by
  intro L
  induction L with
  | nil => intro s hg _; exact hg
  | cons c rest ih =>
      intro s hg hcond
      simp only [List.foldl_cons]
      apply ih
      · exact goodState_disconnect s c uid hg (hcond c (List.mem_cons_self c rest))
      · intro c' hc' info hinfo
        exact hcond c' (List.mem_cons_of_mem c hc') info (mem_disconnect_ci hinfo)

theorem goodState_send_to_user (s : ConnectionManager) (u : String) (m : Msg)
    (fails : WebSocket → Bool) (hg : GoodState s) :
    GoodState (send_to_user s u m fails).1 := by
  rw [send_to_user_state]
  cases hs : alookup s.active_connections u with
  | none => exact hg
  | some conns =>
      apply goodState_foldl_disconnect u _ s hg
      intro c hc info hinfo
      have hcm : c ∈ conns := List.mem_of_mem_filter hc
      exact (hg.2 c info u conns hinfo hs hcm).symm

theorem goodState_applyOp (s : ConnectionManager) (op : Op)
    (hg : GoodState s) (hwf : WFStep s op) : GoodState (applyOp s op) := by
  cases op with
  | connect ws u d now fails => exact goodState_connect s ws u d now fails hg hwf
  | disconnect ws uid => exact goodState_disconnect s ws uid hg hwf
  | send_to_user u m fails => exact goodState_send_to_user s u m fails hg
  | broadcast m ex fails => exact hg

theorem goodState_reachableWF (s : ConnectionManager) (h : ReachableWF s) :
    GoodState s := by
  induction h with
  | empty => exact goodState_empty
  | step s op _ hwf ih => exact goodState_applyOp s op ih hwf

/-! ### Cleanup lemmas for `send_to_user` (C1) -/

theorem disconnect_preserves_ci_none {s : ConnectionManager} {c : WebSocket}
    (h : alookup s.connection_info c = none) (ws : WebSocket) (uid : String) :
    alookup (disconnect s ws uid).connection_info c = none := by
  rw [disconnect_ci]
  by_cases hc : c = ws
  · rw [if_pos hc]
  · rw [if_neg hc]
    exact h

theorem foldl_disconnect_preserves_removed (uid : String) (c : WebSocket) :
    ∀ (L : List WebSocket) (s : ConnectionManager),
      (∀ l', alookup s.active_connections uid = some l' → c ∉ l') →
      alookup s.connection_info c = none →
      (∀ l', alookup (L.foldl (fun st x => disconnect st x uid) s).active_connections uid
          = some l' → c ∉ l')
      ∧ alookup (L.foldl (fun st x => disconnect st x uid) s).connection_info c = none := by
  intro L
  induction L with
  | nil => intro s h1 h2; exact ⟨h1, h2⟩
  | cons x rest ih =>
      intro s h1 h2
      simp only [List.foldl_cons]
      apply ih
      · intro l' hl' hm
        rcases mem_disconnect_ac hl' hm with ⟨l0, hl0, hm0, _⟩
        exact h1 l0 hl0 hm0
      · exact disconnect_preserves_ci_none h2 x uid

theorem foldl_disconnect_removes (uid : String) (c : WebSocket) :
    ∀ (L : List WebSocket) (s : ConnectionManager), c ∈ L →
      (∀ l', alookup (L.foldl (fun st x => disconnect st x uid) s).active_connections uid
          = some l' → c ∉ l')
      ∧ alookup (L.foldl (fun st x => disconnect st x uid) s).connection_info c = none := by
  intro L
  induction L with
  | nil => intro s hc; cases hc
  | cons x rest ih =>
      intro s hc
      simp only [List.foldl_cons]
      by_cases hcx : c ∈ rest
      · exact ih (disconnect s x uid) hcx
      · have hcx' : c = x := by
          rcases List.mem_cons.mp hc with h | h
          · exact h
          · exact absurd h hcx
        subst hcx'
        apply foldl_disconnect_preserves_removed uid c rest (disconnect s c uid)
        · intro l' hl'
          exact disconnect_removes_from_set s c uid hl'
        · exact disconnect_removes_ci s c uid

theorem foldl_disconnect_none (uid : String) :
    ∀ (L : List WebSocket) (s : ConnectionManager),
      alookup s.active_connections uid = none →
      alookup (L.foldl (fun st x => disconnect st x uid) s).active_connections uid
        = none := by
  intro L
  induction L with
  | nil => intro s h; exact h
  | cons x rest ih =>
      intro s h
      simp only [List.foldl_cons]
      exact ih _ (disconnect_ac_self_none h)

theorem foldl_disconnect_erases (uid : String) :
    ∀ (L : List WebSocket) (s : ConnectionManager) (conns : List WebSocket),
      alookup s.active_connections uid = some conns → conns ≠ [] →
      (∀ c ∈ conns, c ∈ L) →
      alookup (L.foldl (fun st x => disconnect st x uid) s).active_connections uid
        = none := by
  intro L
  induction L with
  | nil =>
      intro s conns h hne hsub
      cases conns with
      | nil => exact absurd rfl hne
      | cons c cs => exact absurd (hsub c (List.mem_cons_self c cs)) (List.not_mem_nil c)
  | cons x rest ih =>
      intro s conns h hne hsub
      simp only [List.foldl_cons]
      by_cases he : sdiscard conns x = []
      · apply foldl_disconnect_none
        rw [disconnect_ac_self_some h, if_pos he]
      · apply ih (disconnect s x uid) (sdiscard conns x)
        · rw [disconnect_ac_self_some h, if_neg he]
        · exact he
        · intro c hc
          rcases mem_sdiscard.mp hc with ⟨hmem, hne'⟩
          rcases List.mem_cons.mp (hsub c hmem) with hcx | hcr
          · exact absurd hcx hne'
          · exact hcr

/-! ### Broadcast targeting lemmas (C6) -/

theorem mem_broadcastLoop_target (ex : List String) (m : Msg)
    (fails : WebSocket → Bool) (c : WebSocket) :
    ∀ L : List (String × List WebSocket),
      (∃ a ∈ broadcastLoop ex m fails L, a.target = c ∧ a.msg = m)
        ↔ ∃ p ∈ L, p.1 ∉ ex ∧ c ∈ p.2 := by
  intro L
  induction L with
  | nil => simp [broadcastLoop]
  | cons p rest ih =>
      obtain ⟨uid, conns⟩ := p
      by_cases hex : uid ∈ ex
      · rw [show broadcastLoop ex m fails ((uid, conns) :: rest)
            = broadcastLoop ex m fails rest from by simp [broadcastLoop, hex]]
        rw [ih]
        constructor
        · rintro ⟨q, hq, hc⟩
          exact ⟨q, List.mem_cons_of_mem _ hq, hc⟩
        · rintro ⟨q, hq, hq1, hq2⟩
          rcases List.mem_cons.mp hq with hh | hh
          · rw [hh] at hq1
            exact absurd hex hq1
          · exact ⟨q, hh, hq1, hq2⟩
      · rw [show broadcastLoop ex m fails ((uid, conns) :: rest)
            = conns.map (fun c => (⟨c, m, !fails c⟩ : Attempt))
              ++ broadcastLoop ex m fails rest from by simp [broadcastLoop, hex]]
        constructor
        · rintro ⟨a, ha, hat, ham⟩
          rcases List.mem_append.mp ha with hma | hma
          · rcases List.mem_map.mp hma with ⟨c', hc', he⟩
            refine ⟨(uid, conns), List.mem_cons_self _ _, hex, ?_⟩
            have htc : c' = c := by rw [← hat, ← he]
            rw [← htc]
            exact hc'
          · rcases ih.mp ⟨a, hma, hat, ham⟩ with ⟨q, hq, h1, h2⟩
            exact ⟨q, List.mem_cons_of_mem _ hq, h1, h2⟩
        · rintro ⟨q, hq, h1, h2⟩
          rcases List.mem_cons.mp hq with hh | hh
          · rw [hh] at h1 h2
            exact ⟨⟨c, m, !fails c⟩,
              List.mem_append.mpr (Or.inl (List.mem_map.mpr ⟨c, h2, rfl⟩)), rfl, rfl⟩
          · rcases ih.mpr ⟨q, hh, h1, h2⟩ with ⟨a, ha, hat, ham⟩
            exact ⟨a, List.mem_append.mpr (Or.inr ha), hat, ham⟩

theorem broadcastLoop_targets_independent (ex : List String) (m : Msg)
    (fails fails' : WebSocket → Bool) :
    ∀ L : List (String × List WebSocket),
      (broadcastLoop ex m fails L).map (fun a => (a.target, a.msg))
        = (broadcastLoop ex m fails' L).map (fun a => (a.target, a.msg)) := by
  intro L
  induction L with
  | nil => rfl
  | cons p rest ih =>
      obtain ⟨uid, conns⟩ := p
      by_cases hex : uid ∈ ex
      · simpa [broadcastLoop, hex] using ih
      · have h1 : ∀ g : WebSocket → Bool,
            (conns.map (fun c => (⟨c, m, !g c⟩ : Attempt))).map
                (fun a => (a.target, a.msg))
              = conns.map (fun c => (c, m)) := by
          intro g
          rw [List.map_map]
          rfl
        rw [show broadcastLoop ex m fails ((uid, conns) :: rest)
            = conns.map (fun c => (⟨c, m, !fails c⟩ : Attempt))
              ++ broadcastLoop ex m fails rest from by simp [broadcastLoop, hex]]
        rw [show broadcastLoop ex m fails' ((uid, conns) :: rest)
            = conns.map (fun c => (⟨c, m, !fails' c⟩ : Attempt))
              ++ broadcastLoop ex m fails' rest from by simp [broadcastLoop, hex]]
        rw [List.map_append, List.map_append, h1 fails, h1 fails', ih]

theorem alookup_of_mem_nodupKeys {α β : Type} [DecidableEq α]
    {L : List (α × β)} (hnd : (L.map Prod.fst).Nodup) {p : α × β} (hp : p ∈ L) :
    alookup L p.1 = some p.2 := by
  induction L with
  | nil => cases hp
  | cons q rest ih =>
      obtain ⟨k1, v1⟩ := q
      rcases List.mem_cons.mp hp with hh | hh
      · rw [hh]
        simp [alookup]
      · have hnd' : (rest.map Prod.fst).Nodup := (List.nodup_cons.mp hnd).2
        have hne : k1 ≠ p.1 := by
          intro he
          apply (List.nodup_cons.mp hnd).1
          rw [he]
          exact List.mem_map.mpr ⟨p, hh, rfl⟩
        simp [alookup, hne, ih hnd' hh]

theorem mem_of_alookup_eq_some {α β : Type} [DecidableEq α] {L : List (α × β)}
    {k : α} {v : β} (h : alookup L k = some v) : (k, v) ∈ L := by
  induction L with
  | nil => simp [alookup] at h
  | cons q rest ih =>
      obtain ⟨k1, v1⟩ := q
      by_cases hk : k1 = k
      · subst hk
        simp [alookup] at h
        rw [h]
        exact List.mem_cons_self _ _
      · simp [alookup, hk] at h
        exact List.mem_cons_of_mem _ (ih h)

/-- `disconnect` unfolded to its two components. -/
theorem disconnect_def (s : ConnectionManager) (ws : WebSocket) (uid : String) :
    disconnect s ws uid =
      ⟨match alookup s.active_connections uid with
        | none => s.active_connections
        | some conns =>
            if sdiscard conns ws = [] then aerase s.active_connections uid
            else aset s.active_connections uid (sdiscard conns ws),
       if (alookup s.connection_info ws).isSome then aerase s.connection_info ws
       else s.connection_info⟩ := rfl

/-! ### Concrete fixtures for witnesses and counterexamples -/

def wsA : WebSocket := ⟨0, none⟩
def wsB : WebSocket := ⟨1, some "192.0.2.7"⟩
def alwaysOk : WebSocket → Bool := fun _ => false
def alwaysFail : WebSocket → Bool := fun _ => true
def mAlert : Msg := Msg.payload "alert" "screen time exceeded"

/-- State after `connect(A, "u1")` from the empty registry. -/
def stA : ConnectionManager :=
  applyOp emptyManager (Op.connect wsA "u1" none 0 alwaysOk)

/-- State after `connect(A, "u1")` then `connect(B, "u2")`. -/
def stAB : ConnectionManager :=
  applyOp stA (Op.connect wsB "u2" none 1 alwaysOk)

/-- State after `connect(A, "u1")` then `disconnect(A, "u2")` (a
mismatched-user disconnect). -/
def stMismatch : ConnectionManager :=
  applyOp stA (Op.disconnect wsA "u2")

/-- State after `connect(A, "u1")` then `connect(A, "u2")` (the same
websocket re-connected under a second user identity). -/
def stDouble : ConnectionManager :=
  applyOp stA (Op.connect wsA "u2" none 1 alwaysOk)

/-! ### Claim theorems -/

/-- C1: for a user registered with connection set `conns`,
`send_to_user` attempts a send of `m` to every connection in `conns`;
every connection whose send fails is, after the attempt over the whole
set, removed from the user's set and from the metadata table by folding
the `disconnect` cleanup over the failed connections; and if every send
fails, the user is absent from `get_connected_users` when the call
returns. -/
theorem C1_send_to_user_prunes_failed (s : ConnectionManager) (u : String)
    (m : Msg) (fails : WebSocket → Bool) (conns : List WebSocket)
    (h : alookup s.active_connections u = some conns) :
    ((send_to_user s u m fails).2
        = conns.map (fun c => (⟨c, m, !fails c⟩ : Attempt)))
    ∧ ((send_to_user s u m fails).1
        = (conns.filter (fun c => fails c)).foldl (fun st c => disconnect st c u) s)
    ∧ (∀ c ∈ conns, fails c = true →
        (∀ l', alookup (send_to_user s u m fails).1.active_connections u = some l'
            → c ∉ l')
        ∧ alookup (send_to_user s u m fails).1.connection_info c = none)
    ∧ (conns ≠ [] → (∀ c ∈ conns, fails c = true) →
        u ∉ get_connected_users (send_to_user s u m fails).1) := by
  have htrace : (send_to_user s u m fails).2
      = conns.map (fun c => (⟨c, m, !fails c⟩ : Attempt)) := by
    rw [send_to_user_trace, h]
  have hstate : (send_to_user s u m fails).1
      = (conns.filter (fun c => fails c)).foldl (fun st c => disconnect st c u) s := by
    rw [send_to_user_state, h]
  refine ⟨htrace, hstate, ?_, ?_⟩
  · intro c hc hf
    rw [hstate]
    exact foldl_disconnect_removes u c (conns.filter (fun c => fails c)) s
      (List.mem_filter.mpr ⟨hc, hf⟩)
  · intro hne hall
    rw [hstate]
    intro hmem
    have hnone : alookup ((conns.filter (fun c => fails c)).foldl
        (fun st c => disconnect st c u) s).active_connections u = none := by
      apply foldl_disconnect_erases u _ s conns h hne
      intro c hc
      exact List.mem_filter.mpr ⟨hc, hall c hc⟩
    simp only [get_connected_users] at hmem
    have hsome := (alookup_isSome_iff_mem_keys _ u).mpr hmem
    rw [hnone] at hsome
    cases hsome

/-- C1 witness: with `A` connected under `"u1"` and every send failing,
`"u1"` is gone from the connected-user list after `send_to_user`. -/
theorem C1_witness :
    "u1" ∉ get_connected_users (send_to_user stA "u1" mAlert alwaysFail).1 :=
  (C1_send_to_user_prunes_failed stA "u1" mAlert alwaysFail [wsA]
    (by decide)).2.2.2 (by decide) (by decide)

/-- C2 counterexample: the operation sequence `connect(A, "u1")`;
`disconnect(A, "u2")` from the empty registry yields a state in which
`A` is still a member of `"u1"`'s set but `A`'s metadata entry is gone,
refuting the claimed equivalence for unrestricted operation sequences. -/
theorem C2_counterexample :
    Reachable stMismatch
    ∧ ¬((∃ u l, alookup stMismatch.active_connections u = some l ∧ wsA ∈ l)
        ↔ (alookup stMismatch.connection_info wsA).isSome) := by
  constructor
  · exact Reachable.step _ _ (Reachable.step _ _ Reachable.empty)
  · intro hiff
    have h1 := hiff.mp ⟨"u1", [wsA], by decide, by decide⟩
    have h2 : alookup stMismatch.connection_info wsA = none := by decide
    rw [h2] at h1
    cases h1

/-- C2 (amended): for every sequence of registry operations from the
empty registry in which `connect` is only invoked on a connection with
no existing metadata entry and `disconnect(c, u)` is only invoked when
`c`'s metadata entry, if present, records `u` as its user, a connection
is in some user's set iff a metadata entry for it exists. -/
theorem C2_amended_metadata_sync (s : ConnectionManager) (w : WebSocket)
    (h : ReachableWF s) :
    (∃ u l, alookup s.active_connections u = some l ∧ w ∈ l)
      ↔ (alookup s.connection_info w).isSome :=
  (goodState_reachableWF s h).1 w

/-- C2 witness: the equivalence instantiated at the state reached by one
well-formed `connect` and at connection `A`. -/
theorem C2_witness :
    (∃ u l, alookup stA.active_connections u = some l ∧ wsA ∈ l)
      ↔ (alookup stA.connection_info wsA).isSome :=
  C2_amended_metadata_sync stA wsA
    (ReachableWF.step _ _ ReachableWF.empty
      (show alookup emptyManager.connection_info wsA = none from rfl))

/-- C3: in every state reachable from the empty registry by any
operation sequence, every user key of `active_connections` maps to a
non-empty connection set. -/
theorem C3_keys_have_nonempty_sets (s : ConnectionManager) (u : String)
    (l : List WebSocket) (h : Reachable s)
    (hl : alookup s.active_connections u = some l) : l ≠ [] :=
  nonEmptySets_reachable s h u l hl

/-- C3 witness: instantiated at the state reached by one `connect`. -/
theorem C3_witness : ([wsA] : List WebSocket) ≠ [] :=
  C3_keys_have_nonempty_sets stA "u1" [wsA]
    (Reachable.step _ _ Reachable.empty) (by decide)

/-- C4 counterexample: `connect(A, "u1")`; `connect(A, "u2")` is a
sequence of registry operations that places the same websocket in two
users' sets, refuting the claim for sequences that re-connect an
already-registered connection under a different identity. -/
theorem C4_counterexample :
    Reachable stDouble
    ∧ alookup stDouble.active_connections "u1" = some [wsA]
    ∧ alookup stDouble.active_connections "u2" = some [wsA]
    ∧ ¬ AtMostOneOwner stDouble := by
  refine ⟨Reachable.step _ _ (Reachable.step _ _ Reachable.empty),
    by decide, by decide, ?_⟩
  intro hone
  exact absurd
    (hone wsA "u1" "u2" [wsA] [wsA] (by decide) (by decide) (by decide) (by decide))
    (by decide)

/-- C4 (amended): for every sequence of registry operations from the
empty registry in which `connect` is only invoked on a connection not
currently in any user's set, every connection belongs to at most one
user's connection set. -/
theorem C4_amended_at_most_one_owner (s : ConnectionManager)
    (h : ReachableFresh s) : AtMostOneOwner s :=
  atMostOneOwner_reachableFresh s h

/-- C4 witness: instantiated at the state reached by one fresh
`connect`. -/
theorem C4_witness : AtMostOneOwner stA :=
  C4_amended_at_most_one_owner stA
    (ReachableFresh.step _ _ ReachableFresh.empty
      (by intro u l hl; simp [emptyManager, alookup] at hl))

/-- C5 counterexample: in the reachable state where `A` is registered
under `"u1"` only, `disconnect(A, "u2")` is a call whose websocket is
not in `"u2"`'s set (`"u2"` has no entry at all), yet it changes the
registry state: it deletes `A`'s metadata entry. -/
theorem C5_counterexample :
    Reachable stA
    ∧ alookup stA.active_connections "u2" = none
    ∧ disconnect stA wsA "u2" ≠ stA := by
  exact ⟨Reachable.step _ _ Reachable.empty, by decide, by decide⟩

/-- C5 (amended): on every reachable registry state, `disconnect(c, u)`
is a no-op — the state is left completely unchanged — whenever `c` is
not in `u`'s set and `c` has no metadata entry (in particular on a
second `disconnect(c, u)` immediately following a first); being a total
function, it never raises. -/
theorem C5_amended_disconnect_noop (s : ConnectionManager) (ws : WebSocket)
    (uid : String) (hr : Reachable s)
    (hset : ∀ l, alookup s.active_connections uid = some l → ws ∉ l)
    (hmeta : alookup s.connection_info ws = none) :
    disconnect s ws uid = s := by
  have hnes := nonEmptySets_reachable s hr
  rw [disconnect_def]
  obtain ⟨ac, ci⟩ := s
  simp only [ConnectionManager.mk.injEq]
  constructor
  · cases hs : alookup ac uid with
    | none => rfl
    | some conns =>
        have hns : ws ∉ conns := hset conns hs
        have hne : conns ≠ [] := hnes uid conns hs
        show (if sdiscard conns ws = [] then aerase ac uid
          else aset ac uid (sdiscard conns ws)) = ac
        rw [sdiscard_eq_self_of_not_mem hns, if_neg hne]
        exact aset_self_of_alookup hs
  · rw [hmeta]
    rfl

/-- C5 witness: a second `disconnect` of `A` right after a first one
leaves the state unchanged. -/
theorem C5_witness :
    disconnect (applyOp stA (Op.disconnect wsA "u1")) wsA "u1"
      = applyOp stA (Op.disconnect wsA "u1") :=
  C5_amended_disconnect_noop (applyOp stA (Op.disconnect wsA "u1")) wsA "u1"
    (Reachable.step _ _ (Reachable.step _ _ Reachable.empty))
    (by intro l hl; simp [show alookup (applyOp stA (Op.disconnect wsA "u1")).active_connections "u1" = none from by decide] at hl)
    (by decide)

/-- C6: `broadcast(m, excludeUsers)` attempts delivery of `m` to
exactly the connections of registered users not in `excludeUsers`
(assuming the dict's key list is duplicate-free, as Python dicts are),
and the set of attempted (target, message) pairs is the same under any
two failure patterns — a send failure on one connection never prevents
the attempt to another. -/
theorem C6_broadcast_targets (s : ConnectionManager) (m : Msg) (ex : List String)
    (fails fails' : WebSocket → Bool) (c : WebSocket)
    (hnd : (s.active_connections.map Prod.fst).Nodup) :
    ((∃ a ∈ (broadcast s m (some ex) fails).2, a.target = c ∧ a.msg = m)
      ↔ (∃ u l, alookup s.active_connections u = some l ∧ u ∉ ex ∧ c ∈ l))
    ∧ ((broadcast s m (some ex) fails).2.map (fun a => (a.target, a.msg))
        = (broadcast s m (some ex) fails').2.map (fun a => (a.target, a.msg))) := by
  constructor
  · rw [show (broadcast s m (some ex) fails).2
        = broadcastLoop ex m fails s.active_connections from rfl]
    rw [mem_broadcastLoop_target]
    constructor
    · rintro ⟨⟨u, l⟩, hp, h1, h2⟩
      exact ⟨u, l, alookup_of_mem_nodupKeys hnd hp, h1, h2⟩
    · rintro ⟨u, l, hl, h1, h2⟩
      exact ⟨(u, l), mem_of_alookup_eq_some hl, h1, h2⟩
  · exact broadcastLoop_targets_independent ex m fails fails' s.active_connections

/-- C6 witness: with `A` under `"u1"` and `B` under `"u2"`, broadcasting
with `excludeUsers = ["u1"]` attempts delivery to `B`. -/
theorem C6_witness :
    (∃ a ∈ (broadcast stAB mAlert (some ["u1"]) alwaysOk).2,
        a.target = wsB ∧ a.msg = mAlert)
      ↔ (∃ u l, alookup stAB.active_connections u = some l
          ∧ u ∉ ["u1"] ∧ wsB ∈ l) :=
  (C6_broadcast_targets stAB mAlert ["u1"] alwaysOk alwaysFail wsB (by decide)).1

/-- C7: `send_to_user` for a user with no entry returns the state
unchanged with an empty attempt trace — a silent no-op (and, being a
total function, it raises no error). -/
theorem C7_send_to_user_unregistered (s : ConnectionManager) (u : String)
    (m : Msg) (fails : WebSocket → Bool)
    (h : alookup s.active_connections u = none) :
    send_to_user s u m fails = (s, []) := by
  unfold send_to_user
  rw [h]

/-- C7 witness: sending to an unregistered user in a concrete state. -/
theorem C7_witness : send_to_user stA "offline-user" mAlert alwaysOk = (stA, []) :=
  C7_send_to_user_unregistered stA "offline-user" mAlert alwaysOk (by decide)

/-- C8: `connect` adds the websocket to the user's set (creating the set
when the user has no entry), keeps all previously registered
connections of that user, records a metadata entry with the user
identity, device identity, connect timestamp and best-effort peer
address, and sends exactly one acknowledgement — of type
`"connection"`, carrying the user identity and the timestamp — to this
websocket only; the operation is total, so a user already having other
connections raises no error. -/
theorem C8_connect_effect (s : ConnectionManager) (ws : WebSocket) (u : String)
    (d : Option String) (now : Nat) (fails : WebSocket → Bool) :
    (alookup (connect s ws u d now fails).1.active_connections u
        = some (sadd ((alookup s.active_connections u).getD []) ws))
    ∧ ws ∈ sadd ((alookup s.active_connections u).getD []) ws
    ∧ (∀ c ∈ (alookup s.active_connections u).getD [],
        c ∈ sadd ((alookup s.active_connections u).getD []) ws)
    ∧ (alookup (connect s ws u d now fails).1.connection_info ws
        = some ⟨u, d, now, clientHost ws⟩)
    ∧ (connect s ws u d now fails).2
        = [⟨ws, Msg.connectionAck "connected" u now, !fails ws⟩]
    ∧ Msg.type (Msg.connectionAck "connected" u now) = "connection" := by
  refine ⟨connect_ac_self s ws u d now fails, mem_sadd.mpr (Or.inr rfl), ?_,
    connect_ci_self s ws u d now fails, rfl, rfl⟩
  intro c hc
  exact mem_sadd.mpr (Or.inl hc)

/-- C9: the read loop replies to a `ping` frame with exactly one `pong`
(carrying the current timestamp) to the same connection only, to a
`sync_request` frame with exactly one `sync_response` (empty data
payload plus timestamp) to the same connection only, and any other or
missing frame type produces no reply and no state change — and, the
dispatch being total, no connection error. -/
theorem C9_frame_dispatch (s : ConnectionManager) (ws : WebSocket) (now : Nat)
    (fails : WebSocket → Bool) (f : InFrame) :
    (handleFrame s ws ⟨some "ping"⟩ now fails
        = (s, [⟨ws, Msg.pong now, !fails ws⟩]))
    ∧ (handleFrame s ws ⟨some "sync_request"⟩ now fails
        = (s, [⟨ws, Msg.syncResponse [] now, !fails ws⟩]))
    ∧ Msg.type (Msg.pong now) = "pong"
    ∧ Msg.type (Msg.syncResponse [] now) = "sync_response"
    ∧ (f.type? ≠ some "ping" → f.type? ≠ some "sync_request" →
        handleFrame s ws f now fails = (s, [])) := by
  refine ⟨rfl, ?_, rfl, rfl, ?_⟩
  · unfold handleFrame
    rw [if_neg (by decide), if_pos rfl]
    rfl
  · intro h1 h2
    unfold handleFrame
    rw [if_neg h1, if_neg h2]

/-- C9 witness: an unknown frame type is silently ignored. -/
theorem C9_witness :
    handleFrame stA wsA ⟨some "device_status"⟩ 7 alwaysOk = (stA, []) :=
  (C9_frame_dispatch stA wsA 7 alwaysOk ⟨some "device_status"⟩).2.2.2.2
    (by decide) (by decide)

/-- C10: `broadcast` never mutates the registry: for every state, every
message, every exclusion list and every failure pattern, the state
component of the result — both `active_connections` and
`connection_info` — is exactly the input state. -/
theorem C10_broadcast_pure (s : ConnectionManager) (m : Msg)
    (exclude_users : Option (List String)) (fails : WebSocket → Bool) :
    (broadcast s m exclude_users fails).1 = s := rfl

end NoorWs
